import Mathlib

/-!
Verification of the message-passing player library (src/index.js).

The JavaScript source is shallowly embedded:
* JSON values appearing in message payloads become the inductive `JVal`
  (only atoms are needed by the properties under study).
* A JS object used as a record of named fields becomes `Info`, a total
  function from field names to `Option JVal` (`none` models an absent
  field; `JSON.stringify` drops `undefined` fields, so an `Option.none`
  field is a field that is absent from the encoded text).
* The outbound `postMessage` payload built by `Player.#sendMessage`
  becomes `OutMsg`; per-player `sent` is the ordered list of messages
  posted to that player's iframe `contentWindow` (the transport).
* The DOM, timers and the window message listener are modelled by
  explicit state: `polling` models the live `setInterval` handle,
  `loadListener` models the `load` listener attached to the iframe,
  and the operation type `Op` models the events the environment can
  deliver (a timer tick, a frame load, an inbound routed message, a
  public API call).
* The module-level `messageHandlers` map and `attachedListeners` set
  become the `World` structure; `routeMessage` embeds the listener
  closure installed by `attachGlobalListener`.
-/

/-- Atomic JSON values used in message payloads. -/
inductive JVal
  | null
  | bool (b : Bool)
  | num (n : Int)
  | str (s : String)
deriving DecidableEq, Repr

/-- A JS object viewed as a record of named fields; `none` is an absent
field. -/
abbrev Info := String → Option JVal

/-- The empty object `{}`. -/
def emptyInfo : Info := fun _ => none

/-- Shallow merge `{ ...old, ...new }`: fields of `new` overwrite
same-named fields of `old`, all other fields of `old` are retained. -/
def mergeInfo (old new : Info) : Info := fun k =>
  match new k with
  | some v => some v
  | none => old k

/-- An outbound payload before `#sendMessage` adds `id` and `channel`:
the argument of `#sendMessage` / an element of `#messageQueue`.
`func`/`args` are `none` when the corresponding JS field is absent or
`undefined` (dropped by `JSON.stringify`). -/
structure QMsg where
  event : String
  func : Option String := none
  args : Option (List JVal) := none
deriving DecidableEq, Repr

/-- A full outbound wire message as posted by `#sendMessage`:
`{ ...data, id: this.id, channel: 'widget' }`, JSON-encoded. -/
structure OutMsg where
  event : String
  func : Option String
  args : Option (List JVal)
  id : String
  channel : String
deriving DecidableEq, Repr

/-- The `{ event: 'listening' }` probe payload. -/
def listeningMsg : QMsg := { event := "listening" }

/-- Wire message obtained from a payload by `#sendMessage` of the player
with identifier `pid`. -/
def wireOf (pid : String) (m : QMsg) : OutMsg :=
  { event := m.event, func := m.func, args := m.args, id := pid, channel := "widget" }

/-- An inbound message after `JSON.parse`: `id` routes it, `event` is the
kind discriminator, `info` the payload. -/
structure InMsg where
  id : String
  event : String
  info : Info

/-- The `PlayerEvent` object passed to registered handlers; the `target`
player is represented by its identifier. -/
structure PlayerEvent where
  targetId : String
  type : String
  data : Info

/-- One handler call performed by `#emit`: which handler (handlers are
identified by an abstract tag) received which event. -/
structure Invocation where
  handler : Nat
  event : PlayerEvent

/-- Lookup in the `#events` map (a JS `Map` modelled as an
insertion-ordered association list with unique keys). -/
def evLookup : List (String × List Nat) → String → Option (List Nat)
  | [], _ => none
  | (k, v) :: rest, n => if k = n then some v else evLookup rest n

/-- `Map.set`: overwrite in place if the key exists, else append. -/
def evSet : List (String × List Nat) → String → List Nat → List (String × List Nat)
  | [], n, v => [(n, v)]
  | (k, w) :: rest, n, v =>
    if k = n then (n, v) :: rest else (k, w) :: evSet rest n v

/-- `Map.delete`. -/
def evDelete : List (String × List Nat) → String → List (String × List Nat)
  | [], _ => []
  | (k, w) :: rest, n => if k = n then rest else (k, w) :: evDelete rest n

/-- `Array.prototype.splice` removing the first occurrence found by
`indexOf` (no removal when absent). -/
def removeFirst : List Nat → Nat → List Nat
  | [], _ => []
  | x :: xs, h => if x = h then xs else x :: removeFirst xs h

/-- The per-instance state of `class Player`. `sent` is the transport:
the ordered list of messages posted to this player's iframe. -/
structure Player where
  id : String
  host : String
  messageQueue : List QMsg
  ready : Bool
  polling : Bool
  info : Info
  events : List (String × List Nat)
  loadListener : Bool
  sent : List OutMsg

namespace Player

/-- `#sendMessage`: add `id` and `channel: 'widget'` and post the
JSON-encoded payload to the frame. -/
def sendMessage (p : Player) (m : QMsg) : Player :=
  { p with sent := p.sent ++ [wireOf p.id m] }

/-- `#sendCommand(func, args)`: send immediately when ready, else push
onto the pending queue. -/
def sendCommand (p : Player) (func : String) (args : Option (List JVal)) : Player :=
  if p.ready then
    p.sendMessage { event := "command", func := some func, args := args }
  else
    { p with messageQueue := p.messageQueue ++ [{ event := "command", func := some func, args := args }] }

/-- `#stopPolling`: clear the readiness-probe interval. -/
def stopPolling (p : Player) : Player := { p with polling := false }

/-- `destroy()`, per-instance part: stop polling. (Restoring the original
element and deleting the router entry act on the document and the
`World`, not on this record.) -/
def destroy (p : Player) : Player := p.stopPolling

/-- The handler calls `#emit(type, data)` performs, in registration
order. -/
def emit (p : Player) (type : String) (data : Info) : List Invocation :=
  match evLookup p.events type with
  | none => []
  | some list => list.map fun h => { handler := h, event := { targetId := p.id, type := type, data := data } }

/-- `#handleMessage(data)`: flush the queue, stop polling, become ready,
then dispatch on the `event` discriminator. Returns the new state and
the handler invocations performed. -/
def handleMessage (p : Player) (m : InMsg) : Player × List Invocation :=
  let p1 := if p.messageQueue.length > 0 then
      { p.messageQueue.foldl Player.sendMessage p with messageQueue := [] }
    else p
  let p2 := { p1.stopPolling with ready := true }
  if m.event = "initialDelivery" then
    ({ p2 with info := m.info }, [])
  else if m.event = "infoDelivery" then
    ({ p2 with info := mergeInfo p2.info m.info }, [])
  else if m.event = "apiInfoDelivery" then
    (p2, [])
  else
    (p2, p2.emit m.event m.info)

/-- `addEventListener(name, handler)`. -/
def addEventListener (p : Player) (name : String) (h : Nat) : Player :=
  match evLookup p.events name with
  | some list => { p with events := evSet p.events name (list ++ [h]) }
  | none =>
    ({ p with events := evSet p.events name [h] }).sendCommand "addEventListener" (some [JVal.str name])

/-- `removeEventListener(name, handler)`. -/
def removeEventListener (p : Player) (name : String) (h : Nat) : Player :=
  match evLookup p.events name with
  | none => p
  | some list =>
    let list' := removeFirst list h
    let p1 := { p with events := evSet p.events name list' }
    if list' = [] then
      let p2 := p1.sendCommand "removeEventListener" (some [JVal.str name])
      { p2 with events := evDelete p2.events name }
    else p1

/-- Command surface methods (each forwards to `#sendCommand`; `mute` and
`unMute` pass no `args`, matching the JS calls with a single argument). -/
def loadVideoById (p : Player) (args : List JVal) : Player :=
  p.sendCommand "loadVideoById" (some args)

def cueVideoById (p : Player) (args : List JVal) : Player :=
  p.sendCommand "cueVideoById" (some args)

def playVideo (p : Player) : Player := p.sendCommand "playVideo" (some [])

def pauseVideo (p : Player) : Player := p.sendCommand "pauseVideo" (some [])

def stopVideo (p : Player) : Player := p.sendCommand "stopVideo" (some [])

def seekTo (p : Player) (seconds allowSeekAhead : JVal) : Player :=
  p.sendCommand "seekTo" (some [seconds, allowSeekAhead])

def mute (p : Player) : Player := p.sendCommand "mute" none

def unMute (p : Player) : Player := p.sendCommand "unMute" none

def setVolume (p : Player) (v : JVal) : Player := p.sendCommand "setVolume" (some [v])

/-- Getter surface: read the cached snapshot. -/
def getVolume (p : Player) : Option JVal := p.info "volume"

def isMuted (p : Player) : Option JVal := p.info "muted"

def getDuration (p : Player) : Option JVal := p.info "duration"

end Player

/-- Events the single-threaded environment can deliver to one player:
a public command call, a routed inbound message, the iframe `load` event
firing, the probe interval firing, an event-listener API call, and
`destroy()`. -/
inductive Op
  | cmd (func : String) (args : Option (List JVal))
  | msg (m : InMsg)
  | load
  | tick
  | addListener (name : String) (h : Nat)
  | removeListener (name : String) (h : Nat)
  | destroy

/-- Apply one environment event. The `load` handler is the `emitListening`
closure registered in the constructor (active only while attached); the
interval callback is the same closure (active only while polling). -/
def Player.applyOp (p : Player) : Op → Player
  | .cmd f a => p.sendCommand f a
  | .msg m => (p.handleMessage m).1
  | .load => if p.loadListener then p.sendMessage listeningMsg else p
  | .tick => if p.polling then p.sendMessage listeningMsg else p
  | .addListener n h => p.addEventListener n h
  | .removeListener n h => p.removeEventListener n h
  | .destroy => p.destroy

/-- Run a sequence of environment events. -/
def run (p : Player) (ops : List Op) : Player := ops.foldl Player.applyOp p

/-- The options record accepted by the constructor; `none` models an
absent (or `undefined`) field. `playerVars` values are nullable strings
(null/undefined entries are filtered out of the embed URL). `events`
maps event names to initial handlers. -/
structure PlayerOptions where
  id : Option String := none
  videoId : Option String := none
  width : Option Int := none
  height : Option Int := none
  title : Option String := none
  host : Option String := none
  events : List (String × Nat) := []
  playerVars : List (String × Option String) := []

/-- Options after the defaults merge (`{ ...defaults, ...options }`
followed by the nullish-assignment loop). -/
structure ResolvedOptions where
  id : String
  videoId : String
  width : Int
  height : Int
  title : String
  host : String
  events : List (String × Nat)
  playerVars : List (String × Option String)

/-- Merge defaults into options. The module-level counter `id` is always
incremented, because the defaults object (with its template string
`c${id++}`) is built on every construction. -/
def resolveOptions (nextAutoId : Nat) (o : PlayerOptions) : ResolvedOptions × Nat :=
  ({ id := o.id.getD ("c" ++ toString nextAutoId),
     videoId := o.videoId.getD "",
     width := o.width.getD 640,
     height := o.height.getD 390,
     title := o.title.getD "video player",
     host := o.host.getD "https://www.youtube.com",
     events := o.events,
     playerVars := o.playerVars }, nextAutoId + 1)

/-- Keep the player-vars entries whose value is not null/undefined. -/
def filterVars (vs : List (String × Option String)) : List (String × String) :=
  vs.filterMap fun kv => kv.2.map fun v => (kv.1, v)

/-- `URLSearchParams.prototype.set`: overwrite the value when the key is
present, else append the pair. -/
def setParam (ps : List (String × String)) (k v : String) : List (String × String) :=
  if ps.any fun kv => kv.1 = k then
    ps.map fun kv => if kv.1 = k then (k, v) else kv
  else ps ++ [(k, v)]

/-- Serialize query parameters (percent-encoding, an environment
concern, is not modelled). -/
def encodeParams (ps : List (String × String)) : String :=
  String.intercalate "&" (ps.map fun kv => kv.1 ++ "=" ++ kv.2)

/-- `getEmbedUrl(options)`. -/
def getEmbedUrl (o : ResolvedOptions) : String :=
  o.host ++ "/embed/" ++ o.videoId ++ "?" ++
    encodeParams (setParam (filterVars o.playerVars) "enablejsapi" "1")

/-- The observable attributes of a frame element. `none` models an
attribute that was never set. -/
structure Iframe where
  frameborderAttr : Option String := none
  allowfullscreenAttr : Option String := none
  titleAttr : Option String := none
  widthAttr : Option String := none
  heightAttr : Option String := none
  idAttr : Option String := none
  src : String := ""
deriving DecidableEq, Repr

/-- `createIframe(options)`. The `if (options.width)` truthiness test on
a number holds exactly when the value is nonzero. -/
def createIframe (o : ResolvedOptions) : Iframe :=
  { frameborderAttr := some "0",
    allowfullscreenAttr := some "1",
    titleAttr := some ("YouTube " ++ o.title),
    widthAttr := if o.width = 0 then none else some (toString o.width),
    heightAttr := if o.height = 0 then none else some (toString o.height),
    src := getEmbedUrl o }

/-- An iframe element adopted from the page (its pre-existing attributes
are unknown and irrelevant). -/
def adoptedIframe : Iframe := {}

/-- The constructor's `target` argument, after the document lookup:
an element that already is an iframe, a non-iframe placeholder element,
or no element at all (`getElementById` returned null). -/
inductive Target
  | existingIframe
  | placeholder
  | missing
deriving DecidableEq, Repr

/-- The module-level state: the `attachedListeners` origin set (as an
insertion-ordered list), the keys of the `messageHandlers` map, the live
players those handlers close over, and the auto-id counter. -/
structure World where
  attachedListeners : List String := []
  handlers : List String := []
  players : List Player := []
  nextAutoId : Nat := 0

/-- `attachGlobalListener(host)` acting on the origin set; the low-level
window listener is attached exactly when the set first becomes
nonempty, which the `routeMessage` model reproduces (an empty set
accepts nothing). -/
def attachGlobalListener (ls : List String) (host : String) : List String :=
  if host ∈ ls then ls else ls ++ [host]

/-- The player record built by the constructor body before the router
registration: probe state armed, first probe posted, initial event
callbacks registered. -/
def buildPlayer (ro : ResolvedOptions) : Player :=
  let p0 : Player :=
    { id := ro.id, host := ro.host, messageQueue := [], ready := false,
      polling := true, info := emptyInfo, events := [], loadListener := true,
      sent := [] }
  let p1 := p0.sendMessage listeningMsg
  ro.events.foldl (fun p nh => p.addEventListener nh.1 nh.2) p1

/-- The constructor up to (and including) `attachGlobalListener`: resolve
options, resolve the target, create or adopt the frame, send the first
probe, arm the poll interval and the load listener, register initial
event callbacks, add the host to the trusted-origin set. The duplicate
check has not run yet. -/
def constructPre (w : World) (t : Target) (o : PlayerOptions) :
    Except String (Player × Iframe) × World :=
  let ro := (resolveOptions w.nextAutoId o).1
  let w1 := { w with nextAutoId := (resolveOptions w.nextAutoId o).2 }
  match t with
  | .missing => (.error "target must be an element", w1)
  | .existingIframe =>
    let frame := { adoptedIframe with idAttr := some ("widget" ++ ro.id) }
    (.ok (buildPlayer ro, frame),
     { w1 with attachedListeners := attachGlobalListener w1.attachedListeners ro.host })
  | .placeholder =>
    let frame := { createIframe ro with idAttr := some ("widget" ++ ro.id) }
    (.ok (buildPlayer ro, frame),
     { w1 with attachedListeners := attachGlobalListener w1.attachedListeners ro.host })

/-- The full constructor: after `constructPre`, throw on a duplicate
identifier, else register the handler in the router. -/
def construct (w : World) (t : Target) (o : PlayerOptions) :
    Except String (Player × Iframe) × World :=
  match constructPre w t o with
  | (.error e, w1) => (.error e, w1)
  | (.ok pf, w1) =>
    if pf.1.id ∈ w1.handlers then
      (.error ("Duplicate player id: " ++ pf.1.id), w1)
    else
      (.ok pf, { w1 with handlers := w1.handlers ++ [pf.1.id], players := w1.players ++ [pf.1] })

/-- `destroy()` at the module level: per-instance teardown plus deleting
the router entry; the trusted-origin set is untouched. -/
def destroyWorld (w : World) (pid : String) : World :=
  { w with
    players := w.players.map fun p => if p.id = pid then p.destroy else p,
    handlers := w.handlers.filter fun h => h ≠ pid }

/-- The window `message` listener installed by `attachGlobalListener`:
drop the message unless its origin is in the trusted set; drop it when
`JSON.parse` fails (`raw = none`); look up the handler by the payload's
`id` and invoke it when found. Returns the new world and the handler
invocations performed. -/
def routeMessage (w : World) (origin : String) (raw : Option InMsg) :
    World × List Invocation :=
  if origin ∈ w.attachedListeners then
    match raw with
    | none => (w, [])
    | some m =>
      if m.id ∈ w.handlers then
        let step := fun (acc : List Player × List Invocation) (p : Player) =>
          if p.id = m.id then
            ((acc.1 ++ [(p.handleMessage m).1]), acc.2 ++ (p.handleMessage m).2)
          else (acc.1 ++ [p], acc.2)
        let res := w.players.foldl step ([], [])
        ({ w with players := res.1 }, res.2)
      else (w, [])
  else (w, [])

/-!
Concrete fixtures used by witnesses and counterexamples.
-/

/-- A freshly constructed player with the default host and no queued or
sent traffic (the state right after `buildPlayer`, minus the initial
probe, which the scenarios add explicitly where relevant). -/
def pFresh : Player :=
  { id := "c0", host := "https://www.youtube.com", messageQueue := [], ready := false,
    polling := true, info := emptyInfo, events := [], loadListener := true, sent := [] }

/-- The same player after the ready transition. -/
def pReady : Player := { pFresh with ready := true, polling := false }

/-- The empty module state. -/
def w0 : World := {}

/-- Projection of a construction result onto the error message. -/
def errText : Except String (Player × Iframe) → Option String
  | .error e => some e
  | .ok _ => none

/-!
Helper lemmas: normal forms for each operation.
-/

/-- The command payload built by `#sendCommand`. -/
def cmdPayload (f : String) (a : Option (List JVal)) : QMsg :=
  { event := "command", func := some f, args := a }

/-- The state reached by the ready transition. -/
def SteadyInv (p : Player) : Prop :=
  p.ready = true ∧ p.messageQueue = [] ∧ p.polling = false

/-- A sequence of command-surface calls, each going through
`#sendCommand`. -/
abbrev Cmd := String × Option (List JVal)

/-- Issue a list of commands in order. -/
def issueCmds (p : Player) (cs : List Cmd) : Player :=
  cs.foldl (fun q c => q.sendCommand c.1 c.2) p

/-- A module state holding two live players constructed with different
hosts. -/
def wTwoHosts : World :=
  (construct ((construct w0 Target.existingIframe { host := some "https://one.example" }).2)
    Target.existingIframe { host := some "https://two.example" }).2

/-- A module state in which a player with the explicit identifier `dup`
is already live. -/
def wDup : World := (construct w0 Target.existingIframe { id := some "dup" }).2

/-- Options colliding with the live `dup` player and carrying an initial
event callback. -/
def oDup : PlayerOptions := { id := some "dup", events := [("onReady", 7)] }

/-- A well-formed outbound wire message of the player with identifier
`pid`: it carries that `id`, the constant `channel`, and is either the
`listening` probe (no `func`, no `args`) or a command carrying a `func`
name (`args` may be absent: `mute`/`unMute` omit it). -/
def wireOk (pid : String) (m : OutMsg) : Prop :=
  m.id = pid ∧ m.channel = "widget" ∧
    ((m.event = "listening" ∧ m.func = none ∧ m.args = none) ∨
     (m.event = "command" ∧ m.func.isSome = true))

/-- Every message already posted is well-formed and every queued payload
is a command payload. -/
def WireInv (p : Player) : Prop :=
  (∀ m ∈ p.sent, wireOk p.id m) ∧
  (∀ q ∈ p.messageQueue, q.event = "command" ∧ q.func.isSome = true)

/-- Strip the routing envelope from a wire message, recovering the
payload handed to `#sendMessage`. -/
def stripWire (m : OutMsg) : QMsg := { event := m.event, func := m.func, args := m.args }

/-- The commands an operation taking `p` to `q` issued: what it appended
to the pending queue plus what it posted on the transport (operations
only ever append to these two lists). -/
def issued (p q : Player) : List QMsg :=
  (q.messageQueue.drop p.messageQueue.length) ++ (q.sent.drop p.sent.length).map stripWire

theorem foldl_sendMessage (q : List QMsg) (p : Player) :
    q.foldl Player.sendMessage p = { p with sent := p.sent ++ q.map (wireOf p.id) } := by
  induction q generalizing p with
  | nil => simp
  | cons m rest ih =>
    simp only [List.foldl_cons, ih, Player.sendMessage, List.map_cons]
    simp [List.append_assoc]

theorem Player.sendCommand_eq_ready (p : Player) (f : String) (a : Option (List JVal))
    (h : p.ready = true) :
    p.sendCommand f a = { p with sent := p.sent ++ [wireOf p.id (cmdPayload f a)] } := by
  simp [Player.sendCommand, h, Player.sendMessage, wireOf, cmdPayload]

theorem Player.sendCommand_eq_not_ready (p : Player) (f : String) (a : Option (List JVal))
    (h : p.ready = false) :
    p.sendCommand f a = { p with messageQueue := p.messageQueue ++ [cmdPayload f a] } := by
  simp [Player.sendCommand, h, cmdPayload]

theorem Player.handleMessage_eq (p : Player) (m : InMsg) :
    p.handleMessage m =
      ({ p with sent := p.sent ++ p.messageQueue.map (wireOf p.id),
                messageQueue := [], ready := true, polling := false,
                info := if m.event = "initialDelivery" then m.info
                        else if m.event = "infoDelivery" then mergeInfo p.info m.info
                        else p.info },
       if m.event = "initialDelivery" ∨ m.event = "infoDelivery" ∨ m.event = "apiInfoDelivery"
       then [] else p.emit m.event m.info) := by
  have hq : (if p.messageQueue.length > 0 then
      { p.messageQueue.foldl Player.sendMessage p with messageQueue := [] }
    else p) =
      { p with sent := p.sent ++ p.messageQueue.map (wireOf p.id), messageQueue := [] } := by
    by_cases h : p.messageQueue.length > 0
    · simp [h, foldl_sendMessage]
    · have : p.messageQueue = [] := by
        cases hmq : p.messageQueue with
        | nil => rfl
        | cons x xs => rw [hmq] at h; simp at h
      simp [h, this]
      rw [← this]
  by_cases h1 : m.event = "initialDelivery" <;>
    by_cases h2 : m.event = "infoDelivery" <;>
      by_cases h3 : m.event = "apiInfoDelivery" <;>
        simp_all [Player.handleMessage, hq, Player.stopPolling, Player.emit]

theorem Player.addEventListener_eq_none (p : Player) (n : String) (h : Nat)
    (hl : evLookup p.events n = none) :
    p.addEventListener n h =
      ({ p with events := evSet p.events n [h] }).sendCommand "addEventListener"
        (some [JVal.str n]) := by
  simp [Player.addEventListener, hl]

theorem Player.addEventListener_eq_some (p : Player) (n : String) (h : Nat) (l : List Nat)
    (hl : evLookup p.events n = some l) :
    p.addEventListener n h = { p with events := evSet p.events n (l ++ [h]) } := by
  simp [Player.addEventListener, hl]

theorem Player.removeEventListener_eq_none (p : Player) (n : String) (h : Nat)
    (hl : evLookup p.events n = none) :
    p.removeEventListener n h = p := by
  simp [Player.removeEventListener, hl]

theorem Player.removeEventListener_eq_last (p : Player) (n : String) (h : Nat) (l : List Nat)
    (hl : evLookup p.events n = some l) (hr : removeFirst l h = []) :
    p.removeEventListener n h =
      let p2 := ({ p with events := evSet p.events n [] }).sendCommand "removeEventListener"
        (some [JVal.str n])
      { p2 with events := evDelete p2.events n } := by
  simp [Player.removeEventListener, hl, hr]

theorem Player.removeEventListener_eq_rest (p : Player) (n : String) (h : Nat) (l : List Nat)
    (hl : evLookup p.events n = some l) (hr : removeFirst l h ≠ []) :
    p.removeEventListener n h = { p with events := evSet p.events n (removeFirst l h) } := by
  simp [Player.removeEventListener, hl, hr]

/-!
Steady-state invariant: after the ready transition the flag stays set,
the queue stays empty and the poll timer stays stopped, whatever the
environment delivers next.
-/

theorem Player.sendCommand_steady (p : Player) (f : String) (a : Option (List JVal))
    (h : SteadyInv p) : SteadyInv (p.sendCommand f a) := by
  obtain ⟨hr, hq, hp⟩ := h
  rw [Player.sendCommand_eq_ready p f a hr]
  exact ⟨hr, hq, hp⟩

theorem Player.applyOp_steady (p : Player) (op : Op) (h : SteadyInv p) :
    SteadyInv (p.applyOp op) := by
  obtain ⟨hr, hq, hp⟩ := h
  cases op with
  | cmd f a => exact Player.sendCommand_steady p f a ⟨hr, hq, hp⟩
  | msg m =>
    show SteadyInv (p.handleMessage m).1
    rw [Player.handleMessage_eq]
    exact ⟨rfl, rfl, rfl⟩
  | load =>
    show SteadyInv (if p.loadListener then p.sendMessage listeningMsg else p)
    by_cases hll : p.loadListener = true <;> simp [hll, Player.sendMessage] <;>
      exact ⟨hr, hq, hp⟩
  | tick =>
    show SteadyInv (if p.polling then p.sendMessage listeningMsg else p)
    simp [hp]
    exact ⟨hr, hq, hp⟩
  | addListener n h' =>
    show SteadyInv (p.addEventListener n h')
    cases hl : evLookup p.events n with
    | none =>
      rw [Player.addEventListener_eq_none p n h' hl]
      exact Player.sendCommand_steady _ _ _ ⟨hr, hq, hp⟩
    | some l =>
      rw [Player.addEventListener_eq_some p n h' l hl]
      exact ⟨hr, hq, hp⟩
  | removeListener n h' =>
    show SteadyInv (p.removeEventListener n h')
    cases hl : evLookup p.events n with
    | none => rw [Player.removeEventListener_eq_none p n h' hl]; exact ⟨hr, hq, hp⟩
    | some l =>
      by_cases hre : removeFirst l h' = []
      · rw [Player.removeEventListener_eq_last p n h' l hl hre]
        have := Player.sendCommand_steady { p with events := evSet p.events n [] }
          "removeEventListener" (some [JVal.str n]) ⟨hr, hq, hp⟩
        exact this
      · rw [Player.removeEventListener_eq_rest p n h' l hl hre]
        exact ⟨hr, hq, hp⟩
  | destroy => exact ⟨hr, hq, rfl⟩

theorem run_steady (ops : List Op) (p : Player) (h : SteadyInv p) : SteadyInv (run p ops) := by
  induction ops generalizing p with
  | nil => exact h
  | cons op rest ih => exact ih (p.applyOp op) (Player.applyOp_steady p op h)

theorem Player.sendCommand_preserves_id (p : Player) (f : String) (a : Option (List JVal)) :
    (p.sendCommand f a).id = p.id := by
  by_cases h : p.ready = true
  · rw [Player.sendCommand_eq_ready p f a h]
  · rw [Player.sendCommand_eq_not_ready p f a (by simpa using h)]

theorem Player.applyOp_preserves_id (p : Player) (op : Op) : (p.applyOp op).id = p.id := by
  cases op with
  | cmd f a => exact Player.sendCommand_preserves_id p f a
  | msg m => show ((p.handleMessage m).1).id = p.id; rw [Player.handleMessage_eq]
  | load =>
    show (if p.loadListener then p.sendMessage listeningMsg else p).id = p.id
    by_cases hll : p.loadListener = true <;> simp [hll, Player.sendMessage]
  | tick =>
    show (if p.polling then p.sendMessage listeningMsg else p).id = p.id
    by_cases hpp : p.polling = true <;> simp [hpp, Player.sendMessage]
  | addListener n h' =>
    show (p.addEventListener n h').id = p.id
    cases hl : evLookup p.events n with
    | none =>
      rw [Player.addEventListener_eq_none p n h' hl, Player.sendCommand_preserves_id]
    | some l => rw [Player.addEventListener_eq_some p n h' l hl]
  | removeListener n h' =>
    show (p.removeEventListener n h').id = p.id
    cases hl : evLookup p.events n with
    | none => rw [Player.removeEventListener_eq_none p n h' hl]
    | some l =>
      by_cases hre : removeFirst l h' = []
      · rw [Player.removeEventListener_eq_last p n h' l hl hre]
        simp only []
        rw [Player.sendCommand_preserves_id]
      · rw [Player.removeEventListener_eq_rest p n h' l hl hre]
  | destroy => rfl

theorem run_preserves_id (ops : List Op) (p : Player) : (run p ops).id = p.id := by
  induction ops generalizing p with
  | nil => rfl
  | cons op rest ih => rw [show run p (op :: rest) = run (p.applyOp op) rest from rfl,
      ih, Player.applyOp_preserves_id]

theorem issueCmds_not_ready (cs : List Cmd) (p : Player) (h : p.ready = false) :
    issueCmds p cs =
      { p with messageQueue := p.messageQueue ++ cs.map fun c => cmdPayload c.1 c.2 } := by
  induction cs generalizing p with
  | nil => simp [issueCmds]
  | cons c rest ih =>
    show issueCmds (p.sendCommand c.1 c.2) rest = _
    rw [Player.sendCommand_eq_not_ready p c.1 c.2 h]
    rw [ih { p with messageQueue := p.messageQueue ++ [cmdPayload c.1 c.2] } h]
    simp [List.append_assoc]

/-!
Claim theorems.
-/

/-- C1: commands issued while the instance is not ready are placed in the
pending queue in issue order and nothing is sent; on the first inbound
message they are all posted to the transport exactly once, in the same
FIFO order; afterwards the queue is empty and stays empty under any
sequence of further events, and a later command is posted immediately
without entering the queue. -/
theorem c1_prequeue_fifo_drain (p : Player) (cs : List Cmd) (m : InMsg) (ops : List Op)
    (hr : p.ready = false) (hq : p.messageQueue = []) :
    (issueCmds p cs).messageQueue = cs.map (fun c => cmdPayload c.1 c.2) ∧
    (issueCmds p cs).sent = p.sent ∧
    ((issueCmds p cs).handleMessage m).1.sent
      = p.sent ++ cs.map (fun c => wireOf p.id (cmdPayload c.1 c.2)) ∧
    ((issueCmds p cs).handleMessage m).1.messageQueue = [] ∧
    ((issueCmds p cs).handleMessage m).1.ready = true ∧
    (run ((issueCmds p cs).handleMessage m).1 ops).messageQueue = [] ∧
    ∀ f a,
      ((run ((issueCmds p cs).handleMessage m).1 ops).sendCommand f a).messageQueue = [] ∧
      ((run ((issueCmds p cs).handleMessage m).1 ops).sendCommand f a).sent
        = (run ((issueCmds p cs).handleMessage m).1 ops).sent ++ [wireOf p.id (cmdPayload f a)] := by
  have h1 := issueCmds_not_ready cs p hr
  have hqueue : (issueCmds p cs).messageQueue = cs.map fun c => cmdPayload c.1 c.2 := by
    rw [h1, hq]; simp
  have hsent : (issueCmds p cs).sent = p.sent := by rw [h1]
  have hid : (issueCmds p cs).id = p.id := by rw [h1]
  have hfst : ((issueCmds p cs).handleMessage m).1.sent
      = p.sent ++ cs.map (fun c => wireOf p.id (cmdPayload c.1 c.2)) := by
    rw [Player.handleMessage_eq]
    show (issueCmds p cs).sent ++ (issueCmds p cs).messageQueue.map (wireOf (issueCmds p cs).id)
      = _
    rw [hqueue, hsent, hid, List.map_map]
    rfl
  have hsteady : SteadyInv ((issueCmds p cs).handleMessage m).1 := by
    rw [Player.handleMessage_eq]; exact ⟨rfl, rfl, rfl⟩
  have hrun := run_steady ops _ hsteady
  have hrid : (run ((issueCmds p cs).handleMessage m).1 ops).id = p.id := by
    rw [run_preserves_id]
    rw [Player.handleMessage_eq]
    exact hid
  refine ⟨hqueue, hsent, hfst, hsteady.2.1, hsteady.1, hrun.2.1, fun f a => ?_⟩
  rw [Player.sendCommand_eq_ready _ f a hrun.1, hrid]
  exact ⟨hrun.2.1, rfl⟩

/-- Witness for C1 at a concrete instance: two commands issued before
readiness are drained onto the transport in order by the first inbound
message, and the queue is empty afterwards. -/
theorem c1_witness :
    ((issueCmds pFresh [("playVideo", some []), ("mute", none)]).handleMessage
        { id := "c0", event := "onReady", info := emptyInfo }).1.sent
      = [wireOf "c0" (cmdPayload "playVideo" (some [])), wireOf "c0" (cmdPayload "mute" none)] ∧
    ((issueCmds pFresh [("playVideo", some []), ("mute", none)]).handleMessage
        { id := "c0", event := "onReady", info := emptyInfo }).1.messageQueue = [] := by
  have h := c1_prequeue_fifo_drain pFresh [("playVideo", some []), ("mute", none)]
    { id := "c0", event := "onReady", info := emptyInfo } [] rfl rfl
  exact ⟨by simpa using h.2.2.1, h.2.2.2.1⟩

/-- C3: a command issued through the command surface is appended to the
pending queue when the instance is not ready and posted on the transport
immediately when it is ready; the full-record equalities show it lands
in exactly one of the two places, with no other state change and no
loss. -/
theorem c3_queue_or_send (p : Player) (f : String) (a : Option (List JVal)) :
    (p.ready = true →
      p.sendCommand f a = { p with sent := p.sent ++ [wireOf p.id (cmdPayload f a)] }) ∧
    (p.ready = false →
      p.sendCommand f a = { p with messageQueue := p.messageQueue ++ [cmdPayload f a] }) :=
  ⟨Player.sendCommand_eq_ready p f a, Player.sendCommand_eq_not_ready p f a⟩

/-- Witness for C3 at a concrete ready instance and a concrete not-ready
instance. -/
theorem c3_witness :
    pReady.sendCommand "playVideo" (some [])
      = { pReady with sent := [wireOf "c0" (cmdPayload "playVideo" (some []))] } ∧
    pFresh.sendCommand "playVideo" (some [])
      = { pFresh with messageQueue := [cmdPayload "playVideo" (some [])] } := by
  have h1 := (c3_queue_or_send pReady "playVideo" (some [])).1 rfl
  have h2 := (c3_queue_or_send pFresh "playVideo" (some [])).2 rfl
  exact ⟨by simpa using h1, by simpa using h2⟩

/-- C4: an `infoDelivery` message shallow-merges its fields into the
cached snapshot (fields absent from the message keep their old value,
same-named fields are overwritten), and an `initialDelivery` message
replaces the snapshot wholesale. -/
theorem c4_merge_replace (p : Player) (mid : String) (i : Info) :
    (∀ k v, i k = some v →
      ((p.handleMessage { id := mid, event := "infoDelivery", info := i }).1).info k = some v) ∧
    (∀ k, i k = none →
      ((p.handleMessage { id := mid, event := "infoDelivery", info := i }).1).info k = p.info k) ∧
    ((p.handleMessage { id := mid, event := "initialDelivery", info := i }).1).info = i := by
  refine ⟨?_, ?_, ?_⟩
  · intro k v hk
    rw [Player.handleMessage_eq]
    show (if ("infoDelivery" : String) = "initialDelivery" then i
      else if ("infoDelivery" : String) = "infoDelivery" then mergeInfo p.info i else p.info) k
        = some v
    rw [if_neg (by decide), if_pos rfl]
    simp [mergeInfo, hk]
  · intro k hk
    rw [Player.handleMessage_eq]
    show (if ("infoDelivery" : String) = "initialDelivery" then i
      else if ("infoDelivery" : String) = "infoDelivery" then mergeInfo p.info i else p.info) k
        = p.info k
    rw [if_neg (by decide), if_pos rfl]
    simp [mergeInfo, hk]
  · rw [Player.handleMessage_eq]
    show (if ("initialDelivery" : String) = "initialDelivery" then i
      else if ("initialDelivery" : String) = "infoDelivery" then mergeInfo p.info i else p.info)
        = i
    rw [if_pos rfl]

/-- Witness for C4: delivering `{volume: 50}` then asking about a field
absent from the message. -/
theorem c4_witness :
    ((pReady.handleMessage
        { id := "c0", event := "infoDelivery",
          info := fun k => if k = "volume" then some (JVal.num 50) else none }).1).info "volume"
      = some (JVal.num 50) ∧
    ((pReady.handleMessage
        { id := "c0", event := "infoDelivery",
          info := fun k => if k = "volume" then some (JVal.num 50) else none }).1).info "muted"
      = pReady.info "muted" ∧
    ((pReady.handleMessage
        { id := "c0", event := "initialDelivery",
          info := fun k => if k = "volume" then some (JVal.num 50) else none }).1).info
      = fun k => if k = "volume" then some (JVal.num 50) else none := by
  have h := c4_merge_replace pReady "c0"
    (fun k => if k = "volume" then some (JVal.num 50) else none)
  exact ⟨h.1 "volume" (JVal.num 50) (by decide), h.2.1 "muted" (by decide), h.2.2⟩

/-- C5: handling any inbound message makes the instance ready and stops
the probe timer; under every subsequent event sequence the flag stays
true, the timer stays stopped (a timer tick is a no-op, so it is never
re-armed), and the pending queue stays empty, so no later command is
ever queued. -/
theorem c5_ready_monotonic (p : Player) (m : InMsg) (ops : List Op) :
    ((p.handleMessage m).1).ready = true ∧
    ((p.handleMessage m).1).polling = false ∧
    (run (p.handleMessage m).1 ops).ready = true ∧
    (run (p.handleMessage m).1 ops).polling = false ∧
    (run (p.handleMessage m).1 ops).messageQueue = [] ∧
    (run (p.handleMessage m).1 ops).applyOp Op.tick = run (p.handleMessage m).1 ops := by
  have h0 : SteadyInv (p.handleMessage m).1 := by
    rw [Player.handleMessage_eq]; exact ⟨rfl, rfl, rfl⟩
  have hs := run_steady ops _ h0
  refine ⟨h0.1, h0.2.2, hs.1, hs.2.2, hs.2.1, ?_⟩
  show (if (run (p.handleMessage m).1 ops).polling then _ else _) = _
  rw [hs.2.2]
  simp

/-- C2 counterexample: the trusted-origin check is against the
process-wide set of every constructed instance's host, not against the
receiving instance's own host. With players `c0` (host one.example) and
`c1` (host two.example), a message of origin one.example addressed to
`c1` is accepted and flips `c1` to ready, although one.example is not
`c1`'s configured host. -/
theorem c2_counterexample :
    (wTwoHosts.players.map fun p => (p.id, p.host))
      = [("c0", "https://one.example"), ("c1", "https://two.example")] ∧
    "https://one.example" ≠ "https://two.example" ∧
    (((routeMessage wTwoHosts "https://one.example"
        (some { id := "c1", event := "x", info := emptyInfo })).1).players.map
          fun p => (p.id, p.ready))
      = [("c0", false), ("c1", true)] := by
  refine ⟨by decide, by decide, by decide⟩

/-- C2 as amended: an inbound message is accepted only when its origin is
in the process-wide trusted set (the hosts of all constructed
instances); a message whose origin is outside that set changes no
instance's state, invokes no handler, and flips no readiness flag. -/
theorem c2_trusted_set_routing (w : World) (origin : String) (raw : Option InMsg)
    (h : origin ∉ w.attachedListeners) :
    routeMessage w origin raw = (w, []) := by
  simp [routeMessage, h]

/-- Witness for the amended C2 at a concrete world and untrusted
origin. -/
theorem c2_witness :
    routeMessage wTwoHosts "https://evil.example"
        (some { id := "c1", event := "x", info := emptyInfo })
      = (wTwoHosts, []) :=
  c2_trusted_set_routing wTwoHosts "https://evil.example"
    (some { id := "c1", event := "x", info := emptyInfo }) (by decide)

/-!
Lemmas about the events map and the constructor body, used for C6 and
C9.
-/

theorem evLookup_evSet_self (es : List (String × List Nat)) (n : String) (v : List Nat) :
    evLookup (evSet es n v) n = some v := by
  induction es with
  | nil => simp [evSet, evLookup]
  | cons kv rest ih =>
    obtain ⟨a, b⟩ := kv
    by_cases ha : a = n
    · simp [evSet, ha, evLookup]
    · simp [evSet, ha, evLookup, ih]

theorem evLookup_evSet_other (es : List (String × List Nat)) (n k : String) (v : List Nat)
    (hne : k ≠ n) :
    evLookup (evSet es n v) k = evLookup es k := by
  induction es with
  | nil => simp [evSet, evLookup, Ne.symm hne]
  | cons kv rest ih =>
    obtain ⟨a, b⟩ := kv
    by_cases ha : a = n
    · subst ha
      simp [evSet, evLookup, Ne.symm hne]
    · simp [evSet, ha, evLookup, ih]

theorem Player.sendCommand_events (p : Player) (f : String) (a : Option (List JVal)) :
    (p.sendCommand f a).events = p.events := by
  by_cases h : p.ready = true
  · rw [Player.sendCommand_eq_ready p f a h]
  · rw [Player.sendCommand_eq_not_ready p f a (by simpa using h)]

theorem Player.addEventListener_lookup_self (p : Player) (n : String) (h' : Nat) :
    (evLookup (p.addEventListener n h').events n).isSome = true := by
  cases hl : evLookup p.events n with
  | some l =>
    rw [Player.addEventListener_eq_some p n h' l hl]
    show (evLookup (evSet p.events n (l ++ [h'])) n).isSome = true
    rw [evLookup_evSet_self]
    rfl
  | none =>
    rw [Player.addEventListener_eq_none p n h' hl, Player.sendCommand_events]
    show (evLookup (evSet p.events n [h']) n).isSome = true
    rw [evLookup_evSet_self]
    rfl

theorem Player.addEventListener_lookup_mono (p : Player) (n k : String) (h' : Nat)
    (hk : (evLookup p.events k).isSome = true) :
    (evLookup (p.addEventListener n h').events k).isSome = true := by
  by_cases hkn : k = n
  · subst hkn
    exact Player.addEventListener_lookup_self p k h'
  · cases hl : evLookup p.events n with
    | some l =>
      rw [Player.addEventListener_eq_some p n h' l hl]
      show (evLookup (evSet p.events n (l ++ [h'])) k).isSome = true
      rw [evLookup_evSet_other _ _ _ _ hkn]
      exact hk
    | none =>
      rw [Player.addEventListener_eq_none p n h' hl, Player.sendCommand_events]
      show (evLookup (evSet p.events n [h']) k).isSome = true
      rw [evLookup_evSet_other _ _ _ _ hkn]
      exact hk

theorem Player.addEventListener_fields (p : Player) (n : String) (h' : Nat)
    (hr : p.ready = false) :
    (p.addEventListener n h').ready = false ∧
    (p.addEventListener n h').sent = p.sent ∧
    (p.addEventListener n h').polling = p.polling ∧
    (p.addEventListener n h').id = p.id := by
  cases hl : evLookup p.events n with
  | some l =>
    rw [Player.addEventListener_eq_some p n h' l hl]
    exact ⟨hr, rfl, rfl, rfl⟩
  | none =>
    rw [Player.addEventListener_eq_none p n h' hl,
      Player.sendCommand_eq_not_ready { p with events := evSet p.events n [h'] }
        "addEventListener" (some [JVal.str n]) hr]
    exact ⟨hr, rfl, rfl, rfl⟩

theorem foldl_add_fields (l : List (String × Nat)) (p : Player) (hr : p.ready = false) :
    (l.foldl (fun q nh => q.addEventListener nh.1 nh.2) p).ready = false ∧
    (l.foldl (fun q nh => q.addEventListener nh.1 nh.2) p).sent = p.sent ∧
    (l.foldl (fun q nh => q.addEventListener nh.1 nh.2) p).polling = p.polling ∧
    (l.foldl (fun q nh => q.addEventListener nh.1 nh.2) p).id = p.id := by
  induction l generalizing p with
  | nil => exact ⟨hr, rfl, rfl, rfl⟩
  | cons nh rest ih =>
    have hf := Player.addEventListener_fields p nh.1 nh.2 hr
    have hr' := ih (p.addEventListener nh.1 nh.2) hf.1
    exact ⟨hr'.1, hr'.2.1.trans hf.2.1, hr'.2.2.1.trans hf.2.2.1, hr'.2.2.2.trans hf.2.2.2⟩

theorem foldl_add_lookup (l : List (String × Nat)) (p : Player) (k : String)
    (h : (evLookup p.events k).isSome = true ∨ ∃ h', (k, h') ∈ l) :
    (evLookup (l.foldl (fun q nh => q.addEventListener nh.1 nh.2) p).events k).isSome = true := by
  induction l generalizing p with
  | nil =>
    rcases h with h | ⟨h', hmem⟩
    · exact h
    · exact absurd hmem (List.not_mem_nil _)
  | cons nh rest ih =>
    rcases h with h | ⟨h', hmem⟩
    · exact ih (p.addEventListener nh.1 nh.2)
        (Or.inl (Player.addEventListener_lookup_mono p nh.1 k nh.2 h))
    · rcases List.mem_cons.mp hmem with heq | htail
      · have hk : k = nh.1 := by
          have := congrArg Prod.fst heq
          simpa using this
        subst hk
        exact ih (p.addEventListener nh.1 nh.2)
          (Or.inl (Player.addEventListener_lookup_self p nh.1 nh.2))
      · exact ih (p.addEventListener nh.1 nh.2) (Or.inr ⟨h', htail⟩)

theorem buildPlayer_obs (ro : ResolvedOptions) :
    (buildPlayer ro).id = ro.id ∧
    (buildPlayer ro).sent = [wireOf ro.id listeningMsg] ∧
    (buildPlayer ro).polling = true ∧
    (buildPlayer ro).ready = false ∧
    ∀ nh ∈ ro.events, (evLookup (buildPlayer ro).events nh.1).isSome = true := by
  have key : buildPlayer ro = ro.events.foldl (fun p nh => p.addEventListener nh.1 nh.2)
      { id := ro.id, host := ro.host, messageQueue := [], ready := false, polling := true,
        info := emptyInfo, events := [], loadListener := true,
        sent := [wireOf ro.id listeningMsg] } := by
    unfold buildPlayer
    simp [Player.sendMessage]
  rw [key]
  have hf := foldl_add_fields ro.events
    { id := ro.id, host := ro.host, messageQueue := [], ready := false, polling := true,
      info := emptyInfo, events := [], loadListener := true,
      sent := [wireOf ro.id listeningMsg] } rfl
  refine ⟨hf.2.2.2, hf.2.1, hf.2.2.1, hf.1, ?_⟩
  intro nh hmem
  exact foldl_add_lookup ro.events _ nh.1 (Or.inr ⟨nh.2, hmem⟩)

/-- C6 counterexample: constructing with a colliding identifier does fail
synchronously with the duplicate-id error and skips the router
registration, but the failure happens only after the readiness
handshake has begun (the first `listening` probe is already posted and
the poll interval armed) and after the initial event callbacks have
been registered — contradicting the claimed side-effect order. -/
theorem c6_counterexample :
    errText (construct wDup Target.placeholder oDup).1 = some "Duplicate player id: dup" ∧
    ((constructPre wDup Target.placeholder oDup).1.toOption.map
        fun pf => pf.1.sent.map OutMsg.event) = some ["listening"] ∧
    ((constructPre wDup Target.placeholder oDup).1.toOption.map
        fun pf => pf.1.polling) = some true ∧
    ((constructPre wDup Target.placeholder oDup).1.toOption.map
        fun pf => evLookup pf.1.events "onReady") = some (some [7]) ∧
    (construct wDup Target.placeholder oDup).2.handlers = ["dup"] := by
  refine ⟨by decide, by decide, by decide, by decide, by decide⟩

/-- C6 as amended: when the computed identifier collides with a live
instance and the target resolves, construction fails synchronously with
`Duplicate player id`, and the instance is never registered in the
process-wide router (handlers and live players are unchanged); however
the failure occurs after the readiness handshake has begun — the
partially constructed player has already posted its first `listening`
probe and armed the poll timer — and after the initial event callbacks
have been registered. -/
theorem c6_duplicate_after_handshake (w : World) (t : Target) (o : PlayerOptions)
    (ht : t ≠ Target.missing)
    (hd : (resolveOptions w.nextAutoId o).1.id ∈ w.handlers) :
    (construct w t o).1
      = Except.error ("Duplicate player id: " ++ (resolveOptions w.nextAutoId o).1.id) ∧
    (construct w t o).2.handlers = w.handlers ∧
    (construct w t o).2.players = w.players ∧
    ∃ pf, (constructPre w t o).1 = Except.ok pf ∧
      pf.1.sent = [wireOf (resolveOptions w.nextAutoId o).1.id listeningMsg] ∧
      pf.1.polling = true ∧
      pf.1.ready = false ∧
      ∀ nh ∈ o.events, (evLookup pf.1.events nh.1).isSome = true := by
  have hb := buildPlayer_obs (resolveOptions w.nextAutoId o).1
  cases t with
  | missing => exact absurd rfl ht
  | existingIframe =>
    have hcon : construct w Target.existingIframe o
        = (Except.error ("Duplicate player id: " ++ (resolveOptions w.nextAutoId o).1.id),
           { w with nextAutoId := (resolveOptions w.nextAutoId o).2,
                    attachedListeners := attachGlobalListener w.attachedListeners
                      (resolveOptions w.nextAutoId o).1.host }) := by
      simp only [construct, constructPre]
      rw [hb.1]
      rw [if_pos hd]
    refine ⟨?_, ?_, ?_, ?_⟩
    · rw [hcon]
    · rw [hcon]
    · rw [hcon]
    · exact ⟨(buildPlayer (resolveOptions w.nextAutoId o).1,
        { adoptedIframe with idAttr := some ("widget" ++ (resolveOptions w.nextAutoId o).1.id) }),
        rfl, hb.2.1, hb.2.2.1, hb.2.2.2.1, hb.2.2.2.2⟩
  | placeholder =>
    have hcon : construct w Target.placeholder o
        = (Except.error ("Duplicate player id: " ++ (resolveOptions w.nextAutoId o).1.id),
           { w with nextAutoId := (resolveOptions w.nextAutoId o).2,
                    attachedListeners := attachGlobalListener w.attachedListeners
                      (resolveOptions w.nextAutoId o).1.host }) := by
      simp only [construct, constructPre]
      rw [hb.1]
      rw [if_pos hd]
    refine ⟨?_, ?_, ?_, ?_⟩
    · rw [hcon]
    · rw [hcon]
    · rw [hcon]
    · exact ⟨(buildPlayer (resolveOptions w.nextAutoId o).1,
        { createIframe (resolveOptions w.nextAutoId o).1 with
          idAttr := some ("widget" ++ (resolveOptions w.nextAutoId o).1.id) }),
        rfl, hb.2.1, hb.2.2.1, hb.2.2.2.1, hb.2.2.2.2⟩

/-- Witness for the amended C6 at the concrete colliding construction. -/
theorem c6_witness :
    (construct wDup Target.placeholder oDup).1
      = Except.error ("Duplicate player id: " ++ (resolveOptions wDup.nextAutoId oDup).1.id) ∧
    (construct wDup Target.placeholder oDup).2.handlers = wDup.handlers := by
  have h := c6_duplicate_after_handshake wDup Target.placeholder oDup (by decide) (by decide)
  exact ⟨h.1, h.2.1⟩

/-!
Wire-format invariant for C7.
-/

theorem Player.sendMessage_listening_wire (p : Player) (h : WireInv p) :
    WireInv (p.sendMessage listeningMsg) := by
  refine ⟨?_, h.2⟩
  intro m hm
  rcases List.mem_append.mp hm with hm | hm
  · exact h.1 m hm
  · rcases List.mem_singleton.mp hm with rfl
    exact ⟨rfl, rfl, Or.inl ⟨rfl, rfl, rfl⟩⟩

theorem Player.sendCommand_wire (p : Player) (f : String) (a : Option (List JVal))
    (h : WireInv p) : WireInv (p.sendCommand f a) := by
  by_cases hr : p.ready = true
  · rw [Player.sendCommand_eq_ready p f a hr]
    refine ⟨?_, h.2⟩
    intro m hm
    rcases List.mem_append.mp hm with hm | hm
    · exact h.1 m hm
    · rcases List.mem_singleton.mp hm with rfl
      exact ⟨rfl, rfl, Or.inr ⟨rfl, rfl⟩⟩
  · rw [Player.sendCommand_eq_not_ready p f a (by simpa using hr)]
    refine ⟨h.1, ?_⟩
    intro q hq
    rcases List.mem_append.mp hq with hq | hq
    · exact h.2 q hq
    · rcases List.mem_singleton.mp hq with rfl
      exact ⟨rfl, rfl⟩

theorem Player.handleMessage_wire (p : Player) (m : InMsg) (h : WireInv p) :
    WireInv (p.handleMessage m).1 := by
  rw [Player.handleMessage_eq]
  refine ⟨?_, ?_⟩
  · intro x hx
    rcases List.mem_append.mp hx with hx | hx
    · exact h.1 x hx
    · rcases List.mem_map.mp hx with ⟨q, hq, rfl⟩
      have hc := h.2 q hq
      exact ⟨rfl, rfl, Or.inr ⟨hc.1, hc.2⟩⟩
  · intro q hq
    exact absurd hq (List.not_mem_nil q)

theorem Player.applyOp_wire (p : Player) (op : Op) (h : WireInv p) :
    WireInv (p.applyOp op) := by
  cases op with
  | cmd f a => exact Player.sendCommand_wire p f a h
  | msg m => exact Player.handleMessage_wire p m h
  | load =>
    show WireInv (if p.loadListener then p.sendMessage listeningMsg else p)
    by_cases hll : p.loadListener = true <;> simp [hll]
    · exact Player.sendMessage_listening_wire p h
    · exact h
  | tick =>
    show WireInv (if p.polling then p.sendMessage listeningMsg else p)
    by_cases hpp : p.polling = true <;> simp [hpp]
    · exact Player.sendMessage_listening_wire p h
    · exact h
  | addListener n h' =>
    show WireInv (p.addEventListener n h')
    cases hl : evLookup p.events n with
    | some l =>
      rw [Player.addEventListener_eq_some p n h' l hl]
      exact h
    | none =>
      rw [Player.addEventListener_eq_none p n h' hl]
      exact Player.sendCommand_wire _ _ _ h
  | removeListener n h' =>
    show WireInv (p.removeEventListener n h')
    cases hl : evLookup p.events n with
    | none =>
      rw [Player.removeEventListener_eq_none p n h' hl]
      exact h
    | some l =>
      by_cases hre : removeFirst l h' = []
      · rw [Player.removeEventListener_eq_last p n h' l hl hre]
        exact Player.sendCommand_wire _ _ _ h
      · rw [Player.removeEventListener_eq_rest p n h' l hl hre]
        exact h
  | destroy => exact h

theorem run_wire (ops : List Op) (p : Player) (h : WireInv p) : WireInv (run p ops) := by
  induction ops generalizing p with
  | nil => exact h
  | cons op rest ih => exact ih (p.applyOp op) (Player.applyOp_wire p op h)

/-- C7 counterexample: the command message produced by `mute()` (and
`unMute()`) carries no `args` field — its `args` is `undefined` in the
source and is dropped by `JSON.stringify` — refuting the claim that
every command message carries an ordered argument list. -/
theorem c7_counterexample :
    (Player.mute pReady).sent
      = [{ event := "command", func := some "mute", args := none, id := "c0",
           channel := "widget" }] ∧
    (Player.mute pReady).sent.map OutMsg.args = [none] ∧
    (Player.unMute pReady).sent.map OutMsg.args = [none] ∧
    (Player.playVideo pReady).sent.map OutMsg.args = [some []] := by
  refine ⟨by decide, by decide, by decide, by decide⟩

/-- C7 as amended: every outbound wire message carries `id` equal to the
instance identifier and `channel` equal to the constant `widget`, and is
either the `listening` probe or a command message carrying a `func`
name; command messages carry an `args` list except those produced by
`mute()` and `unMute()`, whose `args` field is absent. -/
theorem c7_wire_format (p : Player) (ops : List Op) (h : WireInv p) :
    (∀ m ∈ (run p ops).sent, wireOk p.id m) ∧
    (∀ q : Player, q.ready = true →
      Player.mute q = { q with sent := q.sent ++
        [{ event := "command", func := some "mute", args := none, id := q.id,
           channel := "widget" }] } ∧
      Player.unMute q = { q with sent := q.sent ++
        [{ event := "command", func := some "unMute", args := none, id := q.id,
           channel := "widget" }] } ∧
      Player.playVideo q = { q with sent := q.sent ++
        [{ event := "command", func := some "playVideo", args := some [], id := q.id,
           channel := "widget" }] }) := by
  constructor
  · intro m hm
    have hw := (run_wire ops p h).1 m hm
    rwa [run_preserves_id] at hw
  · intro q hq
    refine ⟨?_, ?_, ?_⟩
    · rw [show Player.mute q = q.sendCommand "mute" none from rfl,
        Player.sendCommand_eq_ready q "mute" none hq]
      rfl
    · rw [show Player.unMute q = q.sendCommand "unMute" none from rfl,
        Player.sendCommand_eq_ready q "unMute" none hq]
      rfl
    · rw [show Player.playVideo q = q.sendCommand "playVideo" (some []) from rfl,
        Player.sendCommand_eq_ready q "playVideo" (some []) hq]
      rfl

/-- Witness for the amended C7: the invariant applied to a concrete run
that sends one command, and the concrete shape of a `mute` message. -/
theorem c7_witness :
    wireOk "c0"
      { event := "command", func := some "playVideo", args := some [], id := "c0",
        channel := "widget" } ∧
    Player.mute pReady = { pReady with sent :=
      [{ event := "command", func := some "mute", args := none, id := "c0",
         channel := "widget" }] } := by
  have hinv : WireInv pReady := by
    constructor
    · intro m hm
      simp [pReady, pFresh] at hm
    · intro q hq
      simp [pReady, pFresh] at hq
  have h := c7_wire_format pReady [Op.cmd "playVideo" (some [])] hinv
  constructor
  · apply h.1
    show _ ∈ (run pReady [Op.cmd "playVideo" (some [])]).sent
    decide
  · have hm := (h.2 pReady rfl).1
    simpa using hm

/-- C8 counterexample: constructing with no `width` and no `height` in
the options does NOT omit the dimension attributes — the constructor's
defaults (640 and 390) are merged in and `createIframe` sets both
attributes, so the remote default never applies. -/
theorem c8_counterexample :
    (createIframe (resolveOptions 0 {}).1).widthAttr = some "640" ∧
    (createIframe (resolveOptions 0 {}).1).heightAttr = some "390" := by
  refine ⟨by decide, by decide⟩

/-- C8 as amended: when the caller provides no `width` and no `height`,
the created frame carries the library defaults `width="640"` and
`height="390"`; the attributes are omitted only when the effective
dimension value is falsy, for example an explicit 0. -/
theorem c8_default_dimensions (o : PlayerOptions) (n : Nat)
    (hw : o.width = none) (hh : o.height = none) :
    (createIframe (resolveOptions n o).1).widthAttr = some "640" ∧
    (createIframe (resolveOptions n o).1).heightAttr = some "390" ∧
    (createIframe (resolveOptions n { o with width := some 0, height := some 0 }).1).widthAttr
      = none ∧
    (createIframe (resolveOptions n { o with width := some 0, height := some 0 }).1).heightAttr
      = none := by
  refine ⟨?_, ?_, ?_, ?_⟩ <;> simp [createIframe, resolveOptions, hw, hh] <;> rfl

/-- Witness for the amended C8 at the empty options record. -/
theorem c8_witness :
    (createIframe (resolveOptions 0 ({} : PlayerOptions)).1).widthAttr = some "640" ∧
    (createIframe (resolveOptions 0
      ({ width := some 0, height := some 0 } : PlayerOptions)).1).widthAttr = none := by
  have h := c8_default_dimensions ({} : PlayerOptions) 0 rfl rfl
  exact ⟨h.1, h.2.2.1⟩

/-!
The command-issue delta and key-uniqueness lemmas for C9.
-/

theorem issued_sendCommand_of (p q : Player) (f : String) (a : Option (List JVal))
    (hq : q.messageQueue = p.messageQueue) (hs : q.sent = p.sent) :
    issued p (q.sendCommand f a) = [cmdPayload f a] := by
  by_cases hr : q.ready = true
  · rw [Player.sendCommand_eq_ready q f a hr]
    show (q.messageQueue.drop p.messageQueue.length) ++
      ((q.sent ++ [wireOf q.id (cmdPayload f a)]).drop p.sent.length).map stripWire
        = [cmdPayload f a]
    rw [hq, hs, List.drop_length, List.drop_left]
    rfl
  · rw [Player.sendCommand_eq_not_ready q f a (by simpa using hr)]
    show ((q.messageQueue ++ [cmdPayload f a]).drop p.messageQueue.length) ++
      (q.sent.drop p.sent.length).map stripWire = [cmdPayload f a]
    rw [hq, hs, List.drop_length, List.drop_left]
    rfl

theorem issued_same_fields (p q q' : Player) (hq : q'.messageQueue = q.messageQueue)
    (hs : q'.sent = q.sent) : issued p q' = issued p q := by
  unfold issued
  rw [hq, hs]

theorem Player.addEventListener_preserves_id (p : Player) (n : String) (h' : Nat) :
    (p.addEventListener n h').id = p.id := by
  cases hl : evLookup p.events n with
  | some l => rw [Player.addEventListener_eq_some p n h' l hl]
  | none =>
    rw [Player.addEventListener_eq_none p n h' hl, Player.sendCommand_preserves_id]

theorem evLookup_none_of_not_mem (es : List (String × List Nat)) (n : String)
    (h : n ∉ es.map Prod.fst) : evLookup es n = none := by
  induction es with
  | nil => rfl
  | cons kv rest ih =>
    obtain ⟨a, b⟩ := kv
    simp only [List.map_cons, List.mem_cons, not_or] at h
    show (if a = n then some b else evLookup rest n) = none
    rw [if_neg (fun hh => h.1 hh.symm)]
    exact ih h.2

theorem evDelete_evSet_lookup (es : List (String × List Nat)) (n : String) (v : List Nat)
    (hnd : (es.map Prod.fst).Nodup) :
    evLookup (evDelete (evSet es n v) n) n = none := by
  induction es with
  | nil => simp [evSet, evDelete, evLookup]
  | cons kv rest ih =>
    obtain ⟨a, b⟩ := kv
    have hsplit := List.nodup_cons.mp (show (a :: rest.map Prod.fst).Nodup from hnd)
    by_cases ha : a = n
    · subst ha
      show evLookup (evDelete (evSet ((a, b) :: rest) a v) a) a = none
      simp [evSet, evDelete]
      exact evLookup_none_of_not_mem rest a hsplit.1
    · show evLookup (evDelete (evSet ((a, b) :: rest) n v) n) n = none
      simp [evSet, evDelete, ha, evLookup]
      exact ih hsplit.2

/-- C9: registering the first handler for a name issues exactly one
remote subscribe command and removing the last handler for a name
issues exactly one remote unsubscribe command; a second registration of
the identical handler is appended (no deduplication) and the handler is
then invoked twice per event; every other add/remove call changes only
the handler table and issues no command. -/
theorem c9_subscription_commands (p : Player) (n : String) (h : Nat) (i : Info)
    (hnd : (p.events.map Prod.fst).Nodup) :
    (evLookup p.events n = none →
      issued p (p.addEventListener n h) = [cmdPayload "addEventListener" (some [JVal.str n])] ∧
      evLookup (p.addEventListener n h).events n = some [h]) ∧
    (∀ l, evLookup p.events n = some l →
      p.addEventListener n h = { p with events := evSet p.events n (l ++ [h]) }) ∧
    (evLookup p.events n = none →
      evLookup ((p.addEventListener n h).addEventListener n h).events n = some [h, h] ∧
      issued p ((p.addEventListener n h).addEventListener n h)
        = [cmdPayload "addEventListener" (some [JVal.str n])] ∧
      ((p.addEventListener n h).addEventListener n h).emit n i
        = [{ handler := h, event := { targetId := p.id, type := n, data := i } },
           { handler := h, event := { targetId := p.id, type := n, data := i } }]) ∧
    (∀ l, evLookup p.events n = some l → removeFirst l h = [] →
      issued p (p.removeEventListener n h)
        = [cmdPayload "removeEventListener" (some [JVal.str n])] ∧
      evLookup (p.removeEventListener n h).events n = none) ∧
    (evLookup p.events n = none → p.removeEventListener n h = p) ∧
    (∀ l, evLookup p.events n = some l → removeFirst l h ≠ [] →
      p.removeEventListener n h = { p with events := evSet p.events n (removeFirst l h) }) := by
  refine ⟨?_, ?_, ?_, ?_, ?_, ?_⟩
  · intro hl
    rw [Player.addEventListener_eq_none p n h hl]
    refine ⟨issued_sendCommand_of p _ _ _ rfl rfl, ?_⟩
    rw [Player.sendCommand_events]
    show evLookup (evSet p.events n [h]) n = some [h]
    exact evLookup_evSet_self p.events n [h]
  · intro l hl
    exact Player.addEventListener_eq_some p n h l hl
  · intro hl
    have e1 := Player.addEventListener_eq_none p n h hl
    have hlook1 : evLookup (p.addEventListener n h).events n = some [h] := by
      rw [e1, Player.sendCommand_events]
      exact evLookup_evSet_self p.events n [h]
    have e2 := Player.addEventListener_eq_some (p.addEventListener n h) n h [h] hlook1
    have hlookd : evLookup ((p.addEventListener n h).addEventListener n h).events n
        = some [h, h] := by
      rw [e2]
      show evLookup (evSet (p.addEventListener n h).events n ([h] ++ [h])) n = some [h, h]
      exact evLookup_evSet_self _ n _
    have hid : ((p.addEventListener n h).addEventListener n h).id = p.id := by
      rw [Player.addEventListener_preserves_id, Player.addEventListener_preserves_id]
    refine ⟨hlookd, ?_, ?_⟩
    · have hsame : issued p ((p.addEventListener n h).addEventListener n h)
          = issued p (p.addEventListener n h) :=
        issued_same_fields p (p.addEventListener n h) _ (by rw [e2]) (by rw [e2])
      rw [hsame, e1]
      exact issued_sendCommand_of p _ _ _ rfl rfl
    · simp [Player.emit, hlookd, hid]
  · intro l hl hre
    rw [Player.removeEventListener_eq_last p n h l hl hre]
    refine ⟨?_, ?_⟩
    · have hsc := issued_sendCommand_of p { p with events := evSet p.events n [] }
        "removeEventListener" (some [JVal.str n]) rfl rfl
      exact (issued_same_fields p _ _ rfl rfl).trans hsc
    · show evLookup (evDelete (({ p with events := evSet p.events n [] }).sendCommand
        "removeEventListener" (some [JVal.str n])).events n) n = none
      rw [Player.sendCommand_events]
      exact evDelete_evSet_lookup p.events n [] hnd
  · intro hl
    exact Player.removeEventListener_eq_none p n h hl
  · intro l hl hre
    exact Player.removeEventListener_eq_rest p n h l hl hre

/-- Witness for C9 at a concrete ready player: first registration issues
one subscribe command, a duplicate registration is appended and invoked
twice. -/
theorem c9_witness :
    issued pReady (pReady.addEventListener "onStateChange" 5)
      = [cmdPayload "addEventListener" (some [JVal.str "onStateChange"])] ∧
    evLookup ((pReady.addEventListener "onStateChange" 5).addEventListener
      "onStateChange" 5).events "onStateChange" = some [5, 5] ∧
    ((pReady.addEventListener "onStateChange" 5).addEventListener "onStateChange" 5).emit
        "onStateChange" emptyInfo
      = [{ handler := 5,
           event := { targetId := "c0", type := "onStateChange", data := emptyInfo } },
         { handler := 5,
           event := { targetId := "c0", type := "onStateChange", data := emptyInfo } }] := by
  have h := c9_subscription_commands pReady "onStateChange" 5 emptyInfo (by decide)
  exact ⟨(h.1 rfl).1, (h.2.2.1 rfl).1, (h.2.2.1 rfl).2.2⟩

/-- C10: the `listening` probe callback registered on the frame's `load`
event is never detached — neither by the ready transition nor by
`destroy()` — so a frame `load` completing after readiness or after
teardown still posts one more `listening` probe on the transport. -/
theorem c10_load_listener_persists (p : Player) (m : InMsg) (h : p.loadListener = true) :
    ((p.handleMessage m).1).loadListener = true ∧
    (p.destroy).loadListener = true ∧
    (p.destroy).applyOp Op.load
      = { p.destroy with sent := (p.destroy).sent ++ [wireOf p.id listeningMsg] } ∧
    ((p.handleMessage m).1).applyOp Op.load
      = { (p.handleMessage m).1 with
          sent := ((p.handleMessage m).1).sent ++ [wireOf p.id listeningMsg] } := by
  have h1 : ((p.handleMessage m).1).loadListener = true := by
    rw [Player.handleMessage_eq]
    exact h
  have h2 : (p.destroy).loadListener = true := h
  refine ⟨h1, h2, ?_, ?_⟩
  · show (if (p.destroy).loadListener then (p.destroy).sendMessage listeningMsg else p.destroy)
      = _
    rw [h2]
    simp only [if_true]
    rfl
  · show (if ((p.handleMessage m).1).loadListener
        then ((p.handleMessage m).1).sendMessage listeningMsg else (p.handleMessage m).1) = _
    rw [h1]
    have hid : ((p.handleMessage m).1).id = p.id := by rw [Player.handleMessage_eq]
    simp [Player.sendMessage, hid]

/-- Witness for C10: after destroying a ready concrete player, a late
frame `load` still posts a probe. -/
theorem c10_witness :
    (pReady.destroy).applyOp Op.load
      = { pReady.destroy with sent := [wireOf "c0" listeningMsg] } := by
  have h := c10_load_listener_persists pReady
    { id := "c0", event := "onReady", info := emptyInfo } rfl
  simpa using h.2.2.1
